import Mathlib

set_option maxRecDepth 100000

/-!
Verification of the REXA news-crawler decision core (`common.py`, `crawler.py`).

The Python source is shallowly embedded: Python strings are Lean `String`
(lists of unicode code points), Python ints are `Int`/`Nat`, Python sets of
strings are `List String` with membership by equality, Python floats arising
from `difflib.SequenceMatcher.ratio` are modelled as exact rationals `ℚ`,
and fallible external calls (the GPT classifier) are modelled as explicit
`Except`/`Bool` parameters.  `str.lower` is modelled as ASCII case folding
(the Korean text the crawler handles has no case), `str.strip` strips the
ASCII whitespace characters, and the `\s`/`\d` regex classes are modelled as
ASCII whitespace/digits.
-/

namespace NewsCrawler

/-! ### Python string primitives -/

/-- Python `str.lower()`, ASCII case folding per character. -/
def pyLower (s : String) : String := ⟨s.data.map Char.toLower⟩

/-- Python whitespace for `str.strip()` and the regex class `\s` (ASCII part). -/
def pyIsSpace (c : Char) : Bool :=
  c == ' ' || c == '\t' || c == '\n' || c == '\r' || c == '\x0b' || c == '\x0c'

/-- Python `str.strip()` on a character list: drop whitespace from both ends. -/
def pyStripList (cs : List Char) : List Char :=
  ((cs.dropWhile pyIsSpace).reverse.dropWhile pyIsSpace).reverse

/-- Python `str.strip()`. -/
def pyStrip (s : String) : String := ⟨pyStripList s.data⟩

/-- Does `cs` start with `pat`? (helper for substring search) -/
def listStartsWith : List Char → List Char → Bool
  | [], _ => true
  | _ :: _, [] => false
  | p :: ps, c :: cs => p == c && listStartsWith ps cs

/-- Does `pat` occur as a contiguous run inside `cs`? -/
def listContainsSub (pat : List Char) : List Char → Bool
  | [] => listStartsWith pat []
  | c :: cs => listStartsWith pat (c :: cs) || listContainsSub pat cs

/-- Python's substring test `pat in s`. -/
def strContains (s pat : String) : Bool := listContainsSub pat.data s.data

/-! ### `common.py`: module-level definitions and the import list of
`crawler.py` (claim C2).  These record the top-level `def` names of
`common.py` and the names `crawler.py` imports `from common`. -/

def common_py_defs : List String :=
  ["is_headline_news", "check_celebrity_scandal", "filter_real_estate_news",
   "filter_by_keywords", "extract_region", "filter_news_batch",
   "search_naver_news", "crawl_news_content", "init_google_sheets",
   "get_recent_urls_from_gsheet", "init_csv_file", "save_news_to_csv",
   "save_news_to_gsheet", "save_all_news_background"]

def crawler_common_imports : List String :=
  ["search_naver_news", "save_all_news_background", "init_google_sheets",
   "init_csv_file", "get_recent_urls_from_gsheet", "get_recent_titles_from_gsheet"]

/-- A Python `from common import n₁, …, nₖ` succeeds iff every imported name
is a module-level definition of `common`. -/
def moduleImportsOk (defined names : List String) : Bool :=
  names.all (fun n => defined.contains n)

/-! ### `is_headline_news` (common.py lines 56–93) -/

def headline_keywords : List String :=
  ["오늘의 부동산 뉴스", "오늘의 뉴스", "부동산 뉴스 총정리", "헤드라인",
   "뉴스 브리핑", "뉴스 모음", "주요 뉴스", "뉴스 정리"]

/-- Consume a literal character sequence; return the rest on success. -/
def eatLit : List Char → List Char → Option (List Char)
  | [], cs => some cs
  | _ :: _, [] => none
  | p :: ps, c :: cs => if p == c then eatLit ps cs else none

/-- Consume `\s*` (greedy; the following literal is never whitespace, so
greedy matching is exact for these patterns). -/
def eatWs (cs : List Char) : List Char := cs.dropWhile pyIsSpace

/-- Consume `\d+` (greedy; the following literal is never a digit). -/
def eatDigits1 : List Char → Option (List Char)
  | [] => none
  | c :: cs => if c.isDigit then some (cs.dropWhile Char.isDigit) else none

/-- The regex `뉴스\s*\(총\s*\d+건\)` anchored at the start of `cs`. -/
def pat1At (cs : List Char) : Bool :=
  match eatLit "뉴스".data cs with
  | none => false
  | some cs₁ =>
    match eatLit "(총".data (eatWs cs₁) with
    | none => false
    | some cs₂ =>
      match eatDigits1 (eatWs cs₂) with
      | none => false
      | some cs₃ => (eatLit "건)".data cs₃).isSome

/-- The regex `총\s*\d+건` anchored at the start of `cs`. -/
def pat2At (cs : List Char) : Bool :=
  match eatLit "총".data cs with
  | none => false
  | some cs₁ =>
    match eatDigits1 (eatWs cs₁) with
    | none => false
    | some cs₂ => (eatLit "건".data cs₂).isSome

/-- The regex `\d+건의?\s*뉴스` anchored at the start of `cs`. -/
def pat3At (cs : List Char) : Bool :=
  match eatDigits1 cs with
  | none => false
  | some cs₁ =>
    match eatLit "건".data cs₁ with
    | none => false
    | some cs₂ =>
      (match eatLit "의".data cs₂ with
       | some cs₃ => (eatLit "뉴스".data (eatWs cs₃)).isSome
       | none => false)
      || (eatLit "뉴스".data (eatWs cs₂)).isSome

/-- Python `re.search`: does the anchored matcher succeed at some position? -/
def anySuffix (p : List Char → Bool) : List Char → Bool
  | [] => p []
  | c :: cs => p (c :: cs) || anySuffix p cs

/-- The function `is_headline_news(title, description)`. -/
def is_headline_news (title description : String) : Bool :=
  let text := pyLower (title ++ " " ++ description)
  headline_keywords.any (fun kw => strContains text kw)
  || anySuffix pat1At text.data
  || anySuffix pat2At text.data
  || anySuffix pat3At text.data

/-! ### `check_celebrity_scandal` (common.py lines 96–165) -/

structure CelebCheck where
  is_celebrity_news : Bool
  should_exclude : Bool
  reason : String
deriving Repr, DecidableEq

def celebrity_keywords : List String :=
  ["배우", "가수", "연예인", "아이돌", "탤런트",
   "스타", "셀럽", "방송인", "코미디언", "개그맨"]

def transaction_keywords : List String :=
  ["매매", "매입", "구입", "구매", "취득", "샀다", "사들",
   "매도", "판매", "처분", "팔았다", "팔아",
   "억원에", "억대", "억원대",
   "투자", "분양", "입주",
   "새집", "이사"]

def scandal_keywords : List String :=
  ["분쟁", "갈등", "소송", "고소", "고발",
   "혐의", "의혹", "논란", "폭로", "고발",
   "사기", "횡령", "배임",
   "전 남편", "전 부인", "이혼", "위자료"]

def check_celebrity_scandal (title description : String) : CelebCheck :=
  let text := pyLower (title ++ " " ++ description)
  let is_celebrity := celebrity_keywords.any (fun kw => strContains text kw)
  let has_transaction := transaction_keywords.any (fun kw => strContains text kw)
  let has_scandal := scandal_keywords.any (fun kw => strContains text kw)
  if !is_celebrity then
    ⟨false, false, "연예인 뉴스 아님"⟩
  else if has_scandal then
    ⟨true, true, "연예인 분쟁/스캔들 (부동산 거래 무관)"⟩
  else if has_transaction then
    ⟨true, false, "연예인 부동산 매수/매도 (포함)"⟩
  else
    ⟨true, false, "연예인 관련이지만 추가 판단 필요"⟩

/-! ### `extract_region` (common.py lines 317–346) -/

def seoul_gu : List String :=
  ["강남구", "강동구", "강북구", "강서구", "관악구",
   "광진구", "구로구", "금천구", "노원구", "도봉구",
   "동대문구", "동작구", "마포구", "서대문구", "서초구",
   "성동구", "성북구", "송파구", "양천구", "영등포구",
   "용산구", "은평구", "종로구", "중구", "중랑구"]

def gyeonggi_cities : List String :=
  ["성남시", "용인시", "수원시", "고양시", "화성시",
   "평택시", "부천시", "안양시", "남양주시"]

def metropolitan : List String :=
  ["인천", "부산", "대구", "대전", "광주", "울산", "세종"]

def extract_region (text : String) : Option String :=
  match seoul_gu.find? (fun gu => strContains text gu) with
  | some gu => some ("서울 " ++ gu)
  | none =>
    match gyeonggi_cities.find? (fun c => strContains text c) with
    | some c => some ("경기 " ++ c)
    | none =>
      match metropolitan.find? (fun m => strContains text m) with
      | some m => some m
      | none => none

/-! ### Relevance verdicts and `filter_by_keywords` (common.py lines 282–315) -/

structure Verdict where
  is_relevant : Bool
  relevance_score : Int
  keywords : List String
  region : Option String
  has_price : Bool
  has_policy : Bool
  reason : String
deriving Repr, DecidableEq

def real_estate_keywords : List String :=
  ["아파트", "오피스텔", "빌딩", "상가", "토지", "주택",
   "매매", "전세", "월세", "분양", "청약", "입주",
   "재건축", "재개발", "정비구역", "부동산", "집값",
   "주택가격", "전세가", "시세", "주담대", "종부세",
   "양도세", "취득세", "국토부", "미분양"]

def exclude_keywords : List String := ["주식", "코인", "비트코인", "펀드", "채권"]

def price_trigger_words : List String := ["가격", "시세", "억", "만원", "상승", "하락"]

def policy_trigger_words : List String := ["정책", "규제", "세금", "대출", "금리"]

/-- The clamp `max(0, min(100, matched * 30 - excluded * 20))`. -/
def keywordScore (matched excluded : Nat) : Int :=
  max 0 (min 100 ((matched : Int) * 30 - (excluded : Int) * 20))

def filter_by_keywords (title description : String) : Verdict :=
  let text := pyLower (title ++ " " ++ description)
  let matched := (real_estate_keywords.filter (fun kw => strContains text kw)).length
  let excluded := (exclude_keywords.filter (fun kw => strContains text kw)).length
  let score := keywordScore matched excluded
  { is_relevant := decide (30 ≤ score),
    relevance_score := score,
    keywords := (real_estate_keywords.filter (fun kw => strContains text kw)).take 5,
    region := extract_region text,
    has_price := price_trigger_words.any (fun kw => strContains text kw),
    has_policy := policy_trigger_words.any (fun kw => strContains text kw),
    reason := "키워드 매칭 기반 (" ++ toString matched ++ "개 매칭)" }

/-! ### `filter_real_estate_news` (common.py lines 168–280)

The GPT call is an external collaborator; it is modelled by two parameters:
`hasApiKey` (whether `OPENAI_API_KEY` is set) and `gptResult`, the outcome of
the `try` block around the OpenAI call — `Except.ok v` when the call returns
a JSON payload parsing to verdict `v` (including the accesses
`result['is_relevant']`/`result['relevance_score']` performed before
returning), and `Except.error e` when the call raises, times out, or its
payload fails JSON parsing or field access. -/

def headlineVerdict : Verdict :=
  ⟨false, 0, [], none, false, false, "헤드라인/종합 뉴스"⟩

def celebrityVerdict (reason : String) : Verdict :=
  ⟨false, 0, [], none, false, false, reason⟩

def filter_real_estate_news (hasApiKey : Bool) (gptResult : Except String Verdict)
    (title description : String) : Verdict :=
  if is_headline_news title description then headlineVerdict
  else
    let celeb := check_celebrity_scandal title description
    if celeb.should_exclude then celebrityVerdict celeb.reason
    else if !hasApiKey then filter_by_keywords title description
    else
      match gptResult with
      | Except.ok v => v
      | Except.error _ => filter_by_keywords title description

/-! ### News items and `filter_news_batch` (common.py lines 348–393) -/

structure NewsItem where
  title : String
  description : String
  link : String
  url : String
  pubDate : String
  relevance_score : Int
  is_relevant : Bool
  keywords : List String
  region : Option String
  has_price : Bool
  has_policy : Bool
  reason : String
deriving Repr, DecidableEq

/-- Python `item.update(result)`: overwrite the verdict fields of the item dict. -/
def updateVerdict (it : NewsItem) (v : Verdict) : NewsItem :=
  { it with
    is_relevant := v.is_relevant,
    relevance_score := v.relevance_score,
    keywords := v.keywords,
    region := v.region,
    has_price := v.has_price,
    has_policy := v.has_policy,
    reason := v.reason }

/-- The function `filter_news_batch(news_items)`; the classifier (one
`filter_real_estate_news` call per item) is passed as a function. -/
def filter_news_batch (classify : String → String → Verdict) :
    List NewsItem → List NewsItem
  | [] => []
  | it :: rest =>
    let v := classify it.title it.description
    if v.is_relevant && decide (75 ≤ v.relevance_score) then
      updateVerdict it v :: filter_news_batch classify rest
    else
      filter_news_batch classify rest

/-! ### Description truncation inside `search_naver_news` (common.py lines 444–451)

```python
if len(description) > 200:
    cut_pos = 200
    for i in range(200, max(0, len(description) - 100), -1):
        if description[i] in '.!?':
            cut_pos = i + 1
            break
    description = description[:cut_pos].strip()
```
-/

def sentence_end_chars : List Char := ['.', '!', '?']

/-- The `for i in …: if description[i] in '.!?': cut_pos = i + 1; break` loop;
`is` is the descending index list, result is `cut_pos`. -/
def cutScan (cs : List Char) : List Nat → Nat
  | [] => 200
  | i :: rest =>
    match cs[i]? with
    | some c => if sentence_end_chars.contains c then i + 1 else cutScan cs rest
    | none => cutScan cs rest

/-- Python `range(200, max(0, n - 100), -1)` as a Lean list (descending). -/
def cutScanIndices (n : Nat) : List Nat :=
  (List.range' (n - 100 + 1) (200 - (n - 100))).reverse

/-- The truncation applied to each raw description in `search_naver_news`. -/
def truncate_description (d : String) : String :=
  let cs := d.data
  if 200 < cs.length then
    ⟨pyStripList (cs.take (cutScan cs (cutScanIndices cs.length)))⟩
  else d

/-! ### History deduplication in `auto_crawl` (crawler.py lines 297–325)

```python
for item in news_items:
    url = item.get('link') or item.get('url', '')
    if url and url in recent_urls: continue
    title = item.get('title', '')
    normalized_title = title.lower().strip().replace(' ', '')
    if normalized_title and normalized_title in recent_titles: continue
    new_news_items.append(item)
```
A missing dict key and an empty-string value are indistinguishable through
`item.get(…) or …` / truthiness, so `link`/`url` are plain strings with `""`
for "absent". -/

/-- The normalization `title.lower().strip().replace(' ', '')`. -/
def normalize_title (t : String) : String :=
  ⟨(pyStripList (pyLower t).data).filter (fun c => c != ' ')⟩

/-- The lookup `item.get('link') or item.get('url', '')`. -/
def itemUrl (it : NewsItem) : String := if it.link != "" then it.link else it.url

/-- The DB-duplicate suppression loop of `auto_crawl`. -/
def history_dedup (recentUrls recentTitles : List String) :
    List NewsItem → List NewsItem
  | [] => []
  | it :: rest =>
    let url := itemUrl it
    if url != "" && recentUrls.contains url then
      history_dedup recentUrls recentTitles rest
    else
      let nt := normalize_title it.title
      if nt != "" && recentTitles.contains nt then
        history_dedup recentUrls recentTitles rest
      else
        it :: history_dedup recentUrls recentTitles rest

/-- The history-suppression step as the spec's words describe it (claim C1):
drop exactly the items whose URL is in `recentUrls` or whose normalized title
is in `recentTitles`, with no emptiness guards. -/
def spec_history_dedup (recentUrls recentTitles : List String)
    (items : List NewsItem) : List NewsItem :=
  items.filter (fun it =>
    !(recentUrls.contains (itemUrl it))
    && !(recentTitles.contains (normalize_title it.title)))

/-! ### `difflib.SequenceMatcher(None, a, b).ratio()` (used by
`calculate_title_similarity`, crawler.py lines 147–165)

With `isjunk=None` the junk set is empty; `autojunk` removes from `b2j` the
elements of `b` occurring more than `len(b)//100 + 1` times when
`len(b) >= 200` (these "popular" elements do not join the `bjunk` set, so
the extension loops treat them like ordinary elements, and the two
junk-extension loops never fire).  The `j2len` dynamic program computes, for
each pair of end positions `(i, j)`, the length of the matching run ending
there whose `b`-side elements are non-popular, cut at the region's lower
bounds; the best block is the first (row-major) pair attaining the running
maximum, then the block is greedily extended over equal elements on both
sides.  `ratio` is `2*M/T` over the recursive block decomposition, and `1.0`
when both sequences are empty. -/

def popularThreshold (n : Nat) : Nat := n / 100 + 1

/-- Is `c` removed from `b2j` by autojunk? -/
def isPopular (b : List Char) (c : Char) : Bool :=
  decide (200 ≤ b.length) &&
  decide (popularThreshold b.length < b.countP (fun x => x == c))

/-- Holds when `a[i]` matches `b[j]` and `b[j]` keeps an entry in `b2j`. -/
def chMatch (a b : List Char) (pop : Char → Bool) (i j : Nat) : Bool :=
  match a[i]?, b[j]? with
  | some x, some y => x == y && !pop y
  | _, _ => false

/-- The `j2len` chain value at end pair `(i, j)`, confined to indices
`≥ alo`/`≥ blo`. -/
def chainLen (a b : List Char) (pop : Char → Bool) (alo blo : Nat) :
    Nat → Nat → Nat
  | 0, j => if alo ≤ 0 ∧ blo ≤ j ∧ chMatch a b pop 0 j = true then 1 else 0
  | i + 1, 0 => if alo ≤ i + 1 ∧ blo ≤ 0 ∧ chMatch a b pop (i + 1) 0 = true then 1 else 0
  | i + 1, j + 1 =>
    if alo ≤ i + 1 ∧ blo ≤ j + 1 ∧ chMatch a b pop (i + 1) (j + 1) = true then
      chainLen a b pop alo blo i j + 1
    else 0

/-- One candidate pair of the inner loop: strict improvement updates the
best (end-position, size) accumulator. -/
def flmStep (a b : List Char) (pop : Char → Bool) (alo blo : Nat)
    (acc : Nat × Nat × Nat) (i j : Nat) : Nat × Nat × Nat :=
  let c := chainLen a b pop alo blo i j
  if acc.2.2 < c then (i, j, c) else acc

/-- The inner `for j …` loop of `find_longest_match` for row `i`. -/
def flmRow (a b : List Char) (pop : Char → Bool) (alo blo bhi : Nat)
    (i : Nat) (acc : Nat × Nat × Nat) : Nat × Nat × Nat :=
  (List.range' blo (bhi - blo)).foldl (fun acc j => flmStep a b pop alo blo acc i j) acc

/-- The outer `for i in range(alo, ahi)` loop. -/
def flmFold (a b : List Char) (pop : Char → Bool) (alo ahi blo bhi : Nat) :
    Nat × Nat × Nat :=
  (List.range' alo (ahi - alo)).foldl
    (fun acc i => flmRow a b pop alo blo bhi i acc) (alo, blo, 0)

/-- Tests `a[i] == b[j]` (for the extension loops; out of range never occurs there
and counts as a mismatch). -/
def sameCh (a b : List Char) (i j : Nat) : Bool :=
  match a[i]?, b[j]? with
  | some x, some y => x == y
  | _, _ => false

/-- The loop `while besti > alo and bestj > blo and a[besti-1] == b[bestj-1]` (the
junk test is vacuous: `bjunk` is empty). -/
def extendLeft (a b : List Char) (alo blo : Nat) :
    Nat → Nat → Nat → Nat × Nat × Nat
  | 0, bj, bs => (0, bj, bs)
  | bi' + 1, bj, bs =>
    if alo ≤ bi' ∧ blo < bj ∧ sameCh a b bi' (bj - 1) = true then
      extendLeft a b alo blo bi' (bj - 1) (bs + 1)
    else (bi' + 1, bj, bs)

/-- The loop `while besti+bestsize < ahi and bestj+bestsize < bhi and
a[besti+bestsize] == b[bestj+bestsize]`; the fuel is `ahi - (bi + bs)`, so
`fuel > 0` encodes `bi + bs < ahi`. -/
def extendRight (a b : List Char) (bhi bi bj : Nat) : Nat → Nat → Nat
  | 0, bs => bs
  | f + 1, bs =>
    if bj + bs < bhi ∧ sameCh a b (bi + bs) (bj + bs) = true then
      extendRight a b bhi bi bj f (bs + 1)
    else bs

/-- The function `find_longest_match(alo, ahi, blo, bhi)`, returning `(besti, bestj, bestsize)`. -/
def find_longest_match (a b : List Char) (pop : Char → Bool)
    (alo ahi blo bhi : Nat) : Nat × Nat × Nat :=
  match flmFold a b pop alo ahi blo bhi with
  | (ei, ej, k) =>
    let start : Nat × Nat × Nat :=
      if k = 0 then (alo, blo, 0) else (ei + 1 - k, ej + 1 - k, k)
    match extendLeft a b alo blo start.1 start.2.1 start.2.2 with
    | (bi, bj, bs) => (bi, bj, extendRight a b bhi bi bj (ahi - (bi + bs)) bs)

/-- Total number of matched elements over `get_matching_blocks`'s recursive
region decomposition (the queue order does not affect the sum).  The fuel
dominates the recursion depth; `ratio` supplies `len(a)+len(b)`. -/
def matchTotal (a b : List Char) (pop : Char → Bool) :
    Nat → Nat → Nat → Nat → Nat → Nat
  | 0, _, _, _, _ => 0
  | fuel + 1, alo, ahi, blo, bhi =>
    match find_longest_match a b pop alo ahi blo bhi with
    | (bi, bj, bs) =>
      if bs = 0 then 0
      else
        matchTotal a b pop fuel alo bi blo bj + bs +
          matchTotal a b pop fuel (bi + bs) ahi (bj + bs) bhi

/-- Python `SequenceMatcher(None, a, b).ratio()` as an exact rational. -/
def sequenceRatio (a b : String) : ℚ :=
  let A := a.data
  let B := b.data
  let T := A.length + B.length
  if T = 0 then 1
  else 2 * (matchTotal A B (isPopular B) T 0 A.length 0 B.length : ℚ) / (T : ℚ)

/-! ### `calculate_title_similarity` and `remove_duplicate_news`
(crawler.py lines 147–215) -/

def calculate_title_similarity (t1 t2 : String) : ℚ :=
  sequenceRatio (pyStrip (pyLower t1)) (pyStrip (pyLower t2))

/-- The comparison key of `sorted(news_items, key=…relevance_score…,
reverse=True)`: `a` may precede `b` iff `a`'s score is ≥ `b`'s. -/
def scoreGE (a b : NewsItem) : Prop :=
  b.relevance_score ≤ a.relevance_score

instance : DecidableRel scoreGE :=
  fun a b => inferInstanceAs (Decidable (b.relevance_score ≤ a.relevance_score))

instance : IsTotal NewsItem scoreGE :=
  ⟨fun a b => Int.le_total b.relevance_score a.relevance_score⟩

instance : IsTrans NewsItem scoreGE :=
  ⟨fun _ _ _ h₁ h₂ => le_trans h₂ h₁⟩

/-- Python's `sorted(…, reverse=True)` is a stable sort, and a stable sort's
output is uniquely determined by the key; `insertionSort` with `scoreGE`
computes exactly that stable descending order (ties keep input order). -/
def sortByScore (items : List NewsItem) : List NewsItem :=
  List.insertionSort scoreGE items

/-- The inner `for selected in unique_news: … break` similarity test. -/
def isDuplicateOf (thr : ℚ) (it : NewsItem) (uniq : List NewsItem) : Bool :=
  uniq.any (fun sel => decide (thr ≤ calculate_title_similarity it.title sel.title))

/-- The greedy selection loop building `unique_news`. -/
def dedupLoop (thr : ℚ) : List NewsItem → List NewsItem → List NewsItem
  | uniq, [] => uniq
  | uniq, it :: rest =>
    if isDuplicateOf thr it uniq then dedupLoop thr uniq rest
    else dedupLoop thr (uniq ++ [it]) rest

/-- The function `remove_duplicate_news(news_items, similarity_threshold)`. -/
def remove_duplicate_news (items : List NewsItem) (thr : ℚ) : List NewsItem :=
  if items.isEmpty then [] else dedupLoop thr [] (sortByScore items)

/-! ## Claim C2 -/

/-- C2: `crawler.py` imports `get_recent_titles_from_gsheet` from `common`,
but `common.py` has no module-level definition of that name, so the import
list of `crawler.py` does not resolve: module evaluation fails before any
batch can run, and the cross-run title-deduplication path is unreachable. -/
theorem crawler_title_import_unresolvable :
    "get_recent_titles_from_gsheet" ∈ crawler_common_imports ∧
    "get_recent_titles_from_gsheet" ∉ common_py_defs ∧
    moduleImportsOk common_py_defs crawler_common_imports = false := by
  exact ⟨by decide, by decide, by decide⟩

/-! ## Claim C5 -/

/-- Helper: `filter_news_batch` equals map-then-filter with the fixed
threshold 75. -/
theorem filter_news_batch_eq (classify : String → String → Verdict) :
    ∀ items : List NewsItem,
      filter_news_batch classify items =
        (items.map (fun it => updateVerdict it (classify it.title it.description))).filter
          (fun it => it.is_relevant && decide (75 ≤ it.relevance_score))
  | [] => rfl
  | it :: rest => by
    simp only [filter_news_batch, List.map_cons, List.filter_cons, updateVerdict]
    by_cases h : (classify it.title it.description).is_relevant = true ∧
        75 ≤ (classify it.title it.description).relevance_score
    · simp only [h.1, decide_eq_true h.2, Bool.and_self, if_true]
      rw [filter_news_batch_eq classify rest]
      simp [updateVerdict]
    · have : ((classify it.title it.description).is_relevant &&
          decide (75 ≤ (classify it.title it.description).relevance_score)) = false := by
        rcases Decidable.not_and_iff_or_not.mp h with h' | h'
        · simp [h']
        · simp [h']
      simp only [this, Bool.false_eq_true, if_false]
      rw [filter_news_batch_eq classify rest]
      simp [updateVerdict]

/-- C5: the batch gate accepts an item into its output exactly when its
classification verdict has `is_relevant = true` and `relevance_score ≥ 75`
(the fixed threshold is applied to every item, via the map/filter equation),
and a batch in which no item passes returns the empty list normally. -/
theorem filter_news_batch_threshold (classify : String → String → Verdict)
    (items : List NewsItem) :
    (filter_news_batch classify items =
      (items.map (fun it => updateVerdict it (classify it.title it.description))).filter
        (fun it => it.is_relevant && decide (75 ≤ it.relevance_score))) ∧
    (filter_news_batch classify items = [] ↔
      ∀ it ∈ items, ¬((classify it.title it.description).is_relevant = true ∧
        75 ≤ (classify it.title it.description).relevance_score)) := by
  refine ⟨filter_news_batch_eq classify items, ?_⟩
  rw [filter_news_batch_eq classify items, List.filter_eq_nil_iff]
  constructor
  · intro h it hmem
    have := h (updateVerdict it (classify it.title it.description))
      (List.mem_map_of_mem _ hmem)
    simp only [updateVerdict, Bool.and_eq_true, decide_eq_true_eq] at this
    exact fun hc => this ⟨hc.1, hc.2⟩
  · intro h x hx
    rcases List.mem_map.mp hx with ⟨it, hmem, rfl⟩
    have := h it hmem
    simp only [updateVerdict, Bool.and_eq_true, decide_eq_true_eq]
    exact fun hc => this ⟨hc.1, hc.2⟩

/-! ## Claim C6 -/

/-- C6: with at least one celebrity keyword and at least one scandal keyword
in the lower-cased `title + " " + description`, the pre-filter excludes the
item regardless of transaction keywords; with a celebrity keyword, no
scandal keyword and a transaction keyword it is marked an included celebrity
property deal; with no celebrity keyword it passes through unexcluded. -/
theorem check_celebrity_scandal_spec (title description : String) :
    (celebrity_keywords.any
        (fun kw => strContains (pyLower (title ++ " " ++ description)) kw) = true →
      scandal_keywords.any
        (fun kw => strContains (pyLower (title ++ " " ++ description)) kw) = true →
      (check_celebrity_scandal title description).should_exclude = true) ∧
    (celebrity_keywords.any
        (fun kw => strContains (pyLower (title ++ " " ++ description)) kw) = true →
      scandal_keywords.any
        (fun kw => strContains (pyLower (title ++ " " ++ description)) kw) = false →
      transaction_keywords.any
        (fun kw => strContains (pyLower (title ++ " " ++ description)) kw) = true →
      (check_celebrity_scandal title description).is_celebrity_news = true ∧
      (check_celebrity_scandal title description).should_exclude = false ∧
      (check_celebrity_scandal title description).reason = "연예인 부동산 매수/매도 (포함)") ∧
    (celebrity_keywords.any
        (fun kw => strContains (pyLower (title ++ " " ++ description)) kw) = false →
      (check_celebrity_scandal title description).should_exclude = false) := by
  refine ⟨?_, ?_, ?_⟩
  · intro h₁ h₂
    simp only [check_celebrity_scandal]
    rw [h₁, h₂]
    rfl
  · intro h₁ h₂ h₃
    simp only [check_celebrity_scandal]
    rw [h₁, h₂, h₃]
    exact ⟨rfl, rfl, rfl⟩
  · intro h₁
    simp only [check_celebrity_scandal]
    rw [h₁]
    rfl

/-- C6 witness: a concrete headline with a celebrity word (배우), a scandal
word (소송) and a transaction word (매입) is excluded; dropping the scandal
word yields the included celebrity-deal verdict; text without a celebrity
word passes. -/
theorem check_celebrity_scandal_spec_witness :
    (check_celebrity_scandal "배우 아파트 매입 소송" "").should_exclude = true ∧
    (check_celebrity_scandal "배우 아파트 매입" "").reason = "연예인 부동산 매수/매도 (포함)" ∧
    (check_celebrity_scandal "아파트 매매" "").should_exclude = false :=
  ⟨(check_celebrity_scandal_spec "배우 아파트 매입 소송" "").1 (by decide) (by decide),
   ((check_celebrity_scandal_spec "배우 아파트 매입" "").2.1 (by decide) (by decide)
     (by decide)).2.2,
   (check_celebrity_scandal_spec "아파트 매매" "").2.2 (by decide)⟩

/-! ## Claim C7 -/

/-- C7: the keyword fallback returns
`score = clamp(0, 100, 30·matched − 20·excluded)` over the distinct matched
vocabulary terms, `is_relevant ⟺ score ≥ 30`, and the first five matched
positive terms in vocabulary order; the clamp is monotone non-decreasing in
positive matches, non-increasing in negative matches, and stays in
`[0, 100]`. -/
theorem filter_by_keywords_spec :
    (∀ title description : String,
      (filter_by_keywords title description).relevance_score =
        keywordScore
          ((real_estate_keywords.filter
            (fun kw => strContains (pyLower (title ++ " " ++ description)) kw)).length)
          ((exclude_keywords.filter
            (fun kw => strContains (pyLower (title ++ " " ++ description)) kw)).length) ∧
      (filter_by_keywords title description).is_relevant =
        decide (30 ≤ (filter_by_keywords title description).relevance_score) ∧
      (filter_by_keywords title description).keywords =
        (real_estate_keywords.filter
          (fun kw => strContains (pyLower (title ++ " " ++ description)) kw)).take 5) ∧
    (∀ p p' n : Nat, p ≤ p' → keywordScore p n ≤ keywordScore p' n) ∧
    (∀ p n n' : Nat, n ≤ n' → keywordScore p n' ≤ keywordScore p n) ∧
    (∀ p n : Nat, 0 ≤ keywordScore p n ∧ keywordScore p n ≤ 100) := by
  refine ⟨fun title description => ⟨rfl, rfl, rfl⟩, ?_, ?_, ?_⟩
  · intro p p' n h
    simp only [keywordScore]
    have : (p : Int) * 30 ≤ (p' : Int) * 30 := by
      have : (p : Int) ≤ (p' : Int) := by exact_mod_cast h
      omega
    omega
  · intro p n n' h
    simp only [keywordScore]
    have : (n : Int) * 20 ≤ (n' : Int) * 20 := by
      have : (n : Int) ≤ (n' : Int) := by exact_mod_cast h
      omega
    omega
  · intro p n
    simp only [keywordScore]
    omega

/-- C7 witness: instantiating the spec at a concrete article and concrete
match counts. -/
theorem filter_by_keywords_spec_witness :
    (filter_by_keywords "아파트 매매 전세" "").relevance_score =
      keywordScore 3 0 ∧
    keywordScore 1 1 ≤ keywordScore 2 1 ∧
    keywordScore 2 2 ≤ keywordScore 2 1 ∧
    0 ≤ keywordScore 5 0 ∧ keywordScore 5 0 ≤ 100 :=
  ⟨by
    have := (filter_by_keywords_spec.1 "아파트 매매 전세" "").1
    simpa using this,
   filter_by_keywords_spec.2.1 1 2 1 (by decide),
   filter_by_keywords_spec.2.2.1 2 1 2 (by decide),
   (filter_by_keywords_spec.2.2.2 5 0).1,
   (filter_by_keywords_spec.2.2.2 5 0).2⟩

/-! ## Claim C8 -/

/-- C8: if the case-folded `title + " " + description` contains a
digest-marker phrase or matches one of the counted-article patterns, the
pre-filter rejects the item with the headline reason and the zero-score
irrelevant verdict, whatever else the text contains and whatever the
classifier collaborator would have answered. -/
theorem headline_digest_reject (title description : String) (hasApiKey : Bool)
    (gpt : Except String Verdict)
    (h : headline_keywords.any
          (fun kw => strContains (pyLower (title ++ " " ++ description)) kw) = true ∨
        anySuffix pat1At (pyLower (title ++ " " ++ description)).data = true ∨
        anySuffix pat2At (pyLower (title ++ " " ++ description)).data = true ∨
        anySuffix pat3At (pyLower (title ++ " " ++ description)).data = true) :
    filter_real_estate_news hasApiKey gpt title description = headlineVerdict ∧
    headlineVerdict.is_relevant = false ∧
    headlineVerdict.relevance_score = 0 ∧
    headlineVerdict.reason = "헤드라인/종합 뉴스" := by
  have hh : is_headline_news title description = true := by
    simp only [is_headline_news, Bool.or_eq_true]
    tauto
  refine ⟨?_, rfl, rfl, rfl⟩
  simp [filter_real_estate_news, hh]

/-- C8 witness: a digest-phrase title and a counted-article title are both
rejected with the headline verdict. -/
theorem headline_digest_reject_witness :
    filter_real_estate_news true
      (Except.ok ⟨true, 100, [], none, true, true, "gpt"⟩)
      "오늘의 부동산 뉴스" "강남 아파트 급등" = headlineVerdict ∧
    filter_real_estate_news false (Except.error "none")
      "부동산 소식" "총 5건" = headlineVerdict :=
  ⟨(headline_digest_reject "오늘의 부동산 뉴스" "강남 아파트 급등" true
      (Except.ok ⟨true, 100, [], none, true, true, "gpt"⟩)
      (Or.inl (by decide))).1,
   (headline_digest_reject "부동산 소식" "총 5건" false (Except.error "none")
      (Or.inr (Or.inr (Or.inl (by decide))))).1⟩

/-! ## Claim C9 -/

/-- C9: the classifier never propagates a failure.  A failing semantic call
(raise, timeout, malformed payload — all `Except.error`) yields exactly the
same verdict as an unconfigured classifier, and past the two pre-filter
stages that verdict is the deterministic keyword fallback; in the embedding
`filter_real_estate_news` is a total function into `Verdict`, so no
exception reaches the caller. -/
theorem classifier_failure_degrades (title description : String) (e : String)
    (hasApiKey : Bool) (g : Except String Verdict) :
    (filter_real_estate_news hasApiKey (Except.error e) title description =
      filter_real_estate_news false g title description) ∧
    (is_headline_news title description = false →
      (check_celebrity_scandal title description).should_exclude = false →
      filter_real_estate_news hasApiKey (Except.error e) title description =
        filter_by_keywords title description) := by
  constructor
  · simp only [filter_real_estate_news]
    split
    · rfl
    · split
      · rfl
      · cases hasApiKey <;> simp
  · intro h₁ h₂
    cases hasApiKey <;> simp [filter_real_estate_news, h₁, h₂]

/-- C9 witness: with a failing classifier call, a plain article gets the
keyword-fallback verdict, configured or not. -/
theorem classifier_failure_degrades_witness :
    filter_real_estate_news true (Except.error "timeout") "강남 아파트 매매" "" =
      filter_by_keywords "강남 아파트 매매" "" ∧
    filter_real_estate_news true (Except.error "timeout") "강남 아파트 매매" "" =
      filter_real_estate_news false (Except.ok headlineVerdict) "강남 아파트 매매" "" :=
  ⟨(classifier_failure_degrades "강남 아파트 매매" "" "timeout" true
      (Except.ok headlineVerdict)).2 (by decide) (by decide),
   (classifier_failure_degrades "강남 아파트 매매" "" "timeout" true
      (Except.ok headlineVerdict)).1⟩

/-! ## Claim C10 -/

/-- A 251-character description whose character at index 200 is `'.'`. -/
def overlongDescription : String :=
  ⟨List.replicate 200 'a' ++ ['.'] ++ List.replicate 50 'b'⟩

/-- C10: the truncation in `search_naver_news` is NOT bounded by 200
characters: the backward scan starts at index 200 inclusive, so a sentence
terminator at index 200 gives `cut_pos = 201` and a 201-character result,
contradicting the 200-character limit stated by the spec and by the code's
own comment (`요약 길이 제한 (200자)`). -/
theorem truncate_description_overlong :
    overlongDescription.data.length = 251 ∧
    (truncate_description overlongDescription).data.length = 201 := by
  exact ⟨by rfl, by rfl⟩

/-! ## Claim C1 -/

/-- C1 amended: an item is dropped by the history-deduplication loop iff its
URL (`link`, falling back to `url`) is non-empty and in `recentUrls`, or —
passing that — its normalized title is non-empty and in `recentTitles`;
survivors are kept unchanged in their order. -/
theorem history_dedup_spec (recentUrls recentTitles : List String) :
    ∀ items : List NewsItem,
      history_dedup recentUrls recentTitles items =
        items.filter (fun it =>
          !(itemUrl it != "" && recentUrls.contains (itemUrl it)) &&
          !(normalize_title it.title != "" &&
            recentTitles.contains (normalize_title it.title)))
  | [] => rfl
  | it :: rest => by
    have ih := history_dedup_spec recentUrls recentTitles rest
    simp only [history_dedup]
    by_cases h₁ : (itemUrl it != "" && recentUrls.contains (itemUrl it)) = true
    · rw [if_pos h₁, ih, List.filter_cons_of_neg]
      simp only [h₁, Bool.not_true, Bool.false_and, Bool.false_eq_true,
        not_false_eq_true]
    · rw [if_neg h₁]
      rw [Bool.not_eq_true] at h₁
      by_cases h₂ : (normalize_title it.title != "" &&
          recentTitles.contains (normalize_title it.title)) = true
      · rw [if_pos h₂, ih, List.filter_cons_of_neg]
        simp only [h₁, h₂, Bool.not_true, Bool.not_false, Bool.true_and,
          Bool.false_eq_true, not_false_eq_true]
      · rw [if_neg h₂, ih, List.filter_cons_of_pos]
        rw [Bool.not_eq_true] at h₂
        simp only [h₁, h₂, Bool.not_false, Bool.true_and, Bool.and_self]

/-- A news item whose `link` and `url` fields are both empty. -/
def emptyUrlItem : NewsItem :=
  ⟨"x", "", "", "", "", 0, true, [], none, false, false, ""⟩

/-- C1 counterexample: an item whose URL (the empty string) IS a member of
`recentUrls` is nevertheless kept, because the code's truthiness guard
`if url and url in recent_urls` skips the membership test for an empty URL —
so "dropped whenever its URL is a member of recentUrls" fails as stated,
and the loop differs from the claim's guard-free filter. -/
theorem history_dedup_counterexample :
    itemUrl emptyUrlItem ∈ ([""] : List String) ∧
    history_dedup [""] [] [emptyUrlItem] = [emptyUrlItem] ∧
    spec_history_dedup [""] [] [emptyUrlItem] = [] := by
  exact ⟨by decide, by rfl, by rfl⟩

/-! ### Self-comparison: `ratio(s, s) = 1`

`find_longest_match` on `(s, s)` over the full range returns `(0, 0, |s|)`:
the dynamic program only ever records diagonal best blocks (an off-diagonal
chain forces an equal diagonal chain that is scanned earlier in row-major
order), and the extension loops then grow a diagonal block to the whole
string, popular characters included. -/

theorem chMatch_spec {a b : List Char} {pop : Char → Bool} {i j : Nat}
    (h : chMatch a b pop i j = true) :
    ∃ x, a[i]? = some x ∧ b[j]? = some x ∧ pop x = false := by
  rw [chMatch] at h
  split at h
  next x y ha hb =>
    rw [Bool.and_eq_true, beq_iff_eq, Bool.not_eq_true'] at h
    exact ⟨y, by rw [ha, h.1], hb, h.2⟩
  next => exact absurd h (by simp)

theorem chMatch_self_intro {s : List Char} {pop : Char → Bool} {i : Nat} {x : Char}
    (hx : s[i]? = some x) (hp : pop x = false) :
    chMatch s s pop i i = true := by
  rw [chMatch, hx]
  simp [hp]

theorem chainLen_le_left (a b : List Char) (pop : Char → Bool) :
    ∀ i j, chainLen a b pop 0 0 i j ≤ i + 1
  | 0, j => by simp only [chainLen]; split <;> omega
  | i + 1, 0 => by simp only [chainLen]; split <;> omega
  | i + 1, j + 1 => by
    simp only [chainLen]
    split
    · have := chainLen_le_left a b pop i j
      omega
    · omega

/-- Diagonal transfer: on a self comparison, any chain ending at `(i, j)` is
dominated by the diagonal chain ending at `(min i j, min i j)`. -/
theorem chainLen_self_diag (s : List Char) (pop : Char → Bool) :
    ∀ i j, chainLen s s pop 0 0 i j ≤ chainLen s s pop 0 0 (min i j) (min i j)
  | 0, j => by
    simp only [Nat.zero_min]
    simp only [chainLen]
    split
    · next hc =>
      obtain ⟨x, hx0, _, hpx⟩ := chMatch_spec hc.2.2
      rw [if_pos ⟨Nat.le_refl 0, Nat.le_refl 0, chMatch_self_intro hx0 hpx⟩]
    · omega
  | i + 1, 0 => by
    simp only [Nat.min_zero]
    simp only [chainLen]
    split
    · next hc =>
      obtain ⟨x, _, hx0, hpx⟩ := chMatch_spec hc.2.2
      rw [if_pos ⟨Nat.le_refl 0, Nat.le_refl 0, chMatch_self_intro hx0 hpx⟩]
    · omega
  | i + 1, j + 1 => by
    rw [Nat.succ_min_succ]
    simp only [chainLen]
    split
    · next hc =>
      obtain ⟨x, hxi, hxj, hpx⟩ := chMatch_spec hc.2.2
      have hxmin : s[min i j + 1]? = some x := by
        rcases Nat.le_total i j with hle | hle
        · rwa [Nat.min_eq_left hle]
        · rwa [Nat.min_eq_right hle]
      rw [if_pos ⟨Nat.zero_le _, Nat.zero_le _, chMatch_self_intro hxmin hpx⟩]
      have := chainLen_self_diag s pop i j
      omega
    · omega

/-- Invariant of the `find_longest_match` accumulator on a self comparison:
the best block end is diagonal, carries its own chain value, and dominates
every diagonal chain scanned so far. -/
def flmInv (s : List Char) (pop : Char → Bool) (n : Nat)
    (acc : Nat × Nat × Nat) (bound : Nat) : Prop :=
  (acc.2.2 = 0 → acc = (0, 0, 0)) ∧
  (acc.2.2 ≠ 0 → acc.1 = acc.2.1 ∧ acc.1 < n ∧
    chainLen s s pop 0 0 acc.1 acc.1 = acc.2.2) ∧
  (∀ d, d < bound → chainLen s s pop 0 0 d d ≤ acc.2.2)

theorem flmStep_diag (s : List Char) (pop : Char → Bool) (n : Nat)
    (acc : Nat × Nat × Nat) (i : Nat) (hi : i < n)
    (hinv : flmInv s pop n acc i) :
    flmInv s pop n (flmStep s s pop 0 0 acc i i) (i + 1) := by
  obtain ⟨h0, hpos, hdom⟩ := hinv
  rw [flmStep]
  split
  · next hlt =>
    refine ⟨fun h => ?_, fun _ => ⟨rfl, hi, rfl⟩, ?_⟩
    · have h' : chainLen s s pop 0 0 i i = 0 := h
      have hlt' : acc.2.2 < chainLen s s pop 0 0 i i := hlt
      omega
    · intro d hd
      rcases Nat.lt_succ_iff_lt_or_eq.mp hd with hd' | rfl
      · exact le_of_lt (lt_of_le_of_lt (hdom d hd') hlt)
      · exact Nat.le_refl _
  · next hge =>
    refine ⟨h0, hpos, ?_⟩
    intro d hd
    rcases Nat.lt_succ_iff_lt_or_eq.mp hd with hd' | rfl
    · exact hdom d hd'
    · omega

/-- Steps whose chain value does not exceed the accumulator leave it
unchanged. -/
theorem flmRow_const (s : List Char) (pop : Char → Bool)
    (acc : Nat × Nat × Nat) (i : Nat) :
    ∀ js : List Nat, (∀ j ∈ js, chainLen s s pop 0 0 i j ≤ acc.2.2) →
      js.foldl (fun a j => flmStep s s pop 0 0 a i j) acc = acc
  | [], _ => rfl
  | j :: js, h => by
    have hstep : flmStep s s pop 0 0 acc i j = acc := by
      rw [flmStep]
      rw [if_neg (by have := h j (List.mem_cons_self j js); omega)]
    rw [List.foldl_cons, hstep]
    exact flmRow_const s pop acc i js (fun j' hj' => h j' (List.mem_cons_of_mem _ hj'))

theorem flmRow_inv (s : List Char) (pop : Char → Bool) (n : Nat)
    (i : Nat) (hi : i < n) (acc : Nat × Nat × Nat)
    (hinv : flmInv s pop n acc i) :
    flmInv s pop n (flmRow s s pop 0 0 n i acc) (i + 1) := by
  have hsplit : List.range' 0 (n - 0) =
      List.range' 0 i ++ i :: List.range' (i + 1) (n - i - 1) := by
    have h₁ : List.range' 0 i ++ List.range' i (n - i) = List.range' 0 n := by
      have h := List.range'_append 0 i (n - i) 1
      simp only [Nat.one_mul, Nat.zero_add] at h
      rw [show n - i + i = n from by omega] at h
      exact h
    have h₂ : List.range' i (n - i) = i :: List.range' (i + 1) (n - i - 1) := by
      obtain ⟨m, hm⟩ : ∃ m, n - i = m + 1 := ⟨n - i - 1, by omega⟩
      rw [hm, List.range'_succ]
      simp
    simp only [Nat.sub_zero]
    rw [← h₁, h₂]
  rw [flmRow, hsplit, List.foldl_append, List.foldl_cons]
  have hpre : (List.range' 0 i).foldl (fun a j => flmStep s s pop 0 0 a i j) acc = acc := by
    refine flmRow_const s pop acc i _ ?_
    intro j hj
    rw [List.mem_range'_1] at hj
    have hmin : min i j = j := Nat.min_eq_right (by omega)
    have := chainLen_self_diag s pop i j
    rw [hmin] at this
    exact le_trans this (hinv.2.2 j (by omega))
  rw [hpre]
  have hdiag := flmStep_diag s pop n acc i hi hinv
  have hsuf : (List.range' (i + 1) (n - i - 1)).foldl
      (fun a j => flmStep s s pop 0 0 a i j) (flmStep s s pop 0 0 acc i i) =
      flmStep s s pop 0 0 acc i i := by
    refine flmRow_const s pop _ i _ ?_
    intro j hj
    rw [List.mem_range'_1] at hj
    have hmin : min i j = i := Nat.min_eq_left (by omega)
    have := chainLen_self_diag s pop i j
    rw [hmin] at this
    exact le_trans this (hdiag.2.2 i (Nat.lt_succ_self i))
  rw [hsuf]
  exact hdiag

theorem flmFold_inv (s : List Char) (pop : Char → Bool) (n : Nat) :
    ∀ (cnt start : Nat) (acc : Nat × Nat × Nat), start + cnt ≤ n →
      flmInv s pop n acc start →
      flmInv s pop n
        ((List.range' start cnt).foldl (fun a i => flmRow s s pop 0 0 n i a) acc)
        (start + cnt)
  | 0, start, acc, _, hinv => by simpa using hinv
  | cnt + 1, start, acc, hle, hinv => by
    rw [List.range'_succ, List.foldl_cons]
    have hrow := flmRow_inv s pop n start (by omega) acc hinv
    have := flmFold_inv s pop n cnt (start + 1)
      (flmRow s s pop 0 0 n start acc) (by omega) hrow
    have harith : start + (cnt + 1) = (start + 1) + cnt := by omega
    rw [harith]
    exact this

theorem flmFold_self (s : List Char) (pop : Char → Bool) :
    flmInv s pop s.length (flmFold s s pop 0 s.length 0 s.length) s.length := by
  have := flmFold_inv s pop s.length s.length 0 (0, 0, 0) (by omega)
    ⟨fun _ => rfl, fun h => absurd rfl h, fun d hd => absurd hd (by omega)⟩
  rw [flmFold]
  simpa using this

theorem sameCh_self {s : List Char} {d : Nat} (hd : d < s.length) :
    sameCh s s d d = true := by
  rw [sameCh, List.getElem?_eq_getElem hd]
  simp

theorem extendLeft_self (s : List Char) :
    ∀ (d bs : Nat), d ≤ s.length → extendLeft s s 0 0 d d bs = (0, 0, bs + d)
  | 0, bs, _ => by simp [extendLeft]
  | d + 1, bs, h => by
    rw [extendLeft,
      if_pos ⟨Nat.zero_le d, Nat.succ_pos d,
        by simpa using sameCh_self (show d < s.length from by omega)⟩]
    simp only [Nat.add_sub_cancel]
    rw [extendLeft_self s d (bs + 1) (by omega)]
    have : bs + 1 + d = bs + (d + 1) := by omega
    rw [this]

theorem extendRight_self (s : List Char) :
    ∀ (f bs : Nat), bs + f ≤ s.length →
      extendRight s s s.length 0 0 f bs = bs + f
  | 0, bs, _ => by simp [extendRight]
  | f + 1, bs, h => by
    rw [extendRight,
      if_pos ⟨by omega, by simpa using sameCh_self (show 0 + bs < s.length from by omega)⟩]
    rw [extendRight_self s f (bs + 1) (by omega)]
    omega

theorem find_longest_match_self (s : List Char) (pop : Char → Bool) :
    find_longest_match s s pop 0 s.length 0 s.length = (0, 0, s.length) := by
  have hinv := flmFold_self s pop
  rw [find_longest_match]
  rcases hF : flmFold s s pop 0 s.length 0 s.length with ⟨e, ej, k⟩
  rw [hF] at hinv
  by_cases hk : k = 0
  · subst hk
    have h0 : ((e, ej, 0) : Nat × Nat × Nat) = (0, 0, 0) := hinv.1 rfl
    have he : e = 0 := congrArg Prod.fst h0
    have hej : ej = 0 := congrArg (fun p => p.2.1) h0
    subst he
    subst hej
    simp only [reduceIte]
    try dsimp only
    rw [extendLeft_self s 0 0 (Nat.zero_le _)]
    try dsimp only
    simp only [Nat.add_zero, Nat.zero_add, Nat.sub_zero]
    rw [extendRight_self s s.length 0 (by omega)]
    simp
  · obtain ⟨heq, hlt, hchain⟩ := hinv.2.1 hk
    simp only at heq hlt hchain
    subst heq
    have hkle : k ≤ e + 1 := hchain ▸ chainLen_le_left s s pop e e
    simp only [if_neg hk]
    try dsimp only
    rw [extendLeft_self s (e + 1 - k) k (by omega)]
    try dsimp only
    have hbs : k + (e + 1 - k) = e + 1 := by omega
    rw [hbs]
    simp only [Nat.zero_add]
    rw [extendRight_self s (s.length - (e + 1)) (e + 1) (by omega)]
    have h2 : e + 1 + (s.length - (e + 1)) = s.length := by omega
    rw [h2]

theorem extendLeft_stuck (a b : List Char) (alo blo bj bs : Nat) :
    extendLeft a b alo blo alo bj bs = (alo, bj, bs) := by
  cases alo with
  | zero => rfl
  | succ a' =>
    rw [extendLeft, if_neg]
    intro h
    omega

theorem find_longest_match_rows_empty (a b : List Char) (pop : Char → Bool)
    (alo blo bhi : Nat) :
    find_longest_match a b pop alo alo blo bhi = (alo, blo, 0) := by
  rw [find_longest_match]
  have hfold : flmFold a b pop alo alo blo bhi = (alo, blo, 0) := by
    rw [flmFold]
    simp
  rw [hfold]
  simp [extendLeft_stuck, extendRight]

theorem matchTotal_degenerate (a b : List Char) (pop : Char → Bool)
    (f alo blo : Nat) : matchTotal a b pop f alo alo blo blo = 0 := by
  cases f with
  | zero => rfl
  | succ f' =>
    rw [matchTotal, find_longest_match_rows_empty]
    rfl

theorem matchTotal_self (s : List Char) (pop : Char → Bool) (f : Nat) :
    matchTotal s s pop (f + 1) 0 s.length 0 s.length = s.length := by
  rw [matchTotal, find_longest_match_self]
  by_cases hn : s.length = 0
  · simp [hn]
  · simp [hn, matchTotal_degenerate]

/-- Self similarity: `SequenceMatcher(None, s, s).ratio() = 1.0` for every string. -/
theorem sequenceRatio_self (s : String) : sequenceRatio s s = 1 := by
  simp only [sequenceRatio]
  by_cases h : s.data.length + s.data.length = 0
  · rw [if_pos h]
  · rw [if_neg h]
    obtain ⟨f, hf⟩ : ∃ f, s.data.length + s.data.length = f + 1 :=
      ⟨s.data.length + s.data.length - 1, by omega⟩
    rw [hf, matchTotal_self]
    have hne : ((f + 1 : ℕ) : ℚ) ≠ 0 := by
      exact_mod_cast Nat.succ_ne_zero f
    have h2 : (2 : ℚ) * ((s.data.length : ℕ) : ℚ) = ((f + 1 : ℕ) : ℚ) := by
      exact_mod_cast congrArg (Nat.cast (R := ℚ))
        (show 2 * s.data.length = f + 1 by omega)
    rw [h2, div_self hne]

/-- Self similarity: `calculate_title_similarity(t, t) = 1.0`. -/
theorem calculate_title_similarity_self (t : String) :
    calculate_title_similarity t t = 1 :=
  sequenceRatio_self _

/-! ### `remove_duplicate_news`: structure lemmas -/

/-- Output order relation of the greedy loop: the later-kept item `b` tested
below threshold against the earlier-kept item `a` (in the direction the loop
computes the similarity). -/
def dissimAfter (thr : ℚ) (a b : NewsItem) : Prop :=
  ¬ thr ≤ calculate_title_similarity b.title a.title

theorem isDuplicateOf_eq_false {thr : ℚ} {it : NewsItem} {uniq : List NewsItem}
    (h : ¬ isDuplicateOf thr it uniq = true) :
    ∀ sel ∈ uniq, ¬ thr ≤ calculate_title_similarity it.title sel.title := by
  simp only [isDuplicateOf, List.any_eq_true, decide_eq_true_eq, not_exists,
    not_and] at h
  exact h

theorem isDuplicateOf_eq_true {thr : ℚ} {it : NewsItem} {uniq : List NewsItem}
    (h : isDuplicateOf thr it uniq = true) :
    ∃ sel ∈ uniq, thr ≤ calculate_title_similarity it.title sel.title := by
  simpa [isDuplicateOf] using h

/-- The loop only appends: its result is the accumulator followed by a
sublist of the remaining input. -/
theorem dedupLoop_decomp (thr : ℚ) :
    ∀ (l uniq : List NewsItem),
      ∃ s, dedupLoop thr uniq l = uniq ++ s ∧ s.Sublist l
  | [], uniq => ⟨[], by simp [dedupLoop]⟩
  | it :: rest, uniq => by
    simp only [dedupLoop]
    by_cases h : isDuplicateOf thr it uniq = true
    · rw [if_pos h]
      obtain ⟨s, hs, hsub⟩ := dedupLoop_decomp thr rest uniq
      exact ⟨s, hs, hsub.cons it⟩
    · rw [if_neg h]
      obtain ⟨s, hs, hsub⟩ := dedupLoop_decomp thr rest (uniq ++ [it])
      refine ⟨it :: s, ?_, hsub.cons₂ it⟩
      rw [hs, List.append_assoc, List.singleton_append]

/-- Every kept item is below threshold against all earlier-kept items. -/
theorem dedupLoop_pairwise (thr : ℚ) :
    ∀ (l uniq : List NewsItem), List.Pairwise (dissimAfter thr) uniq →
      List.Pairwise (dissimAfter thr) (dedupLoop thr uniq l)
  | [], uniq, h => by simpa [dedupLoop] using h
  | it :: rest, uniq, h => by
    simp only [dedupLoop]
    by_cases hd : isDuplicateOf thr it uniq = true
    · rw [if_pos hd]
      exact dedupLoop_pairwise thr rest uniq h
    · rw [if_neg hd]
      refine dedupLoop_pairwise thr rest (uniq ++ [it]) ?_
      rw [List.pairwise_append]
      refine ⟨h, List.pairwise_singleton _ _, ?_⟩
      intro a ha b hb
      rw [List.mem_singleton] at hb
      subst hb
      exact isDuplicateOf_eq_false hd a ha

/-- If nothing in the input collides with the accumulator or with an earlier
input item, everything is kept in order. -/
theorem dedupLoop_keep_all (thr : ℚ) :
    ∀ (l uniq : List NewsItem),
      (∀ x ∈ l, ∀ c ∈ uniq, ¬ thr ≤ calculate_title_similarity x.title c.title) →
      List.Pairwise (dissimAfter thr) l →
      dedupLoop thr uniq l = uniq ++ l
  | [], uniq, _, _ => by simp [dedupLoop]
  | it :: rest, uniq, hcross, hpw => by
    simp only [dedupLoop]
    have hd : ¬ isDuplicateOf thr it uniq = true := by
      simp only [isDuplicateOf, List.any_eq_true, decide_eq_true_eq, not_exists,
        not_and]
      exact fun c hc => hcross it (List.mem_cons_self _ _) c hc
    rw [if_neg hd]
    obtain ⟨hhead, htail⟩ := List.pairwise_cons.mp hpw
    rw [dedupLoop_keep_all thr rest (uniq ++ [it]) ?_ htail]
    · rw [List.append_assoc, List.singleton_append]
    · intro x hx c hc
      rcases List.mem_append.mp hc with hc' | hc'
      · exact hcross x (List.mem_cons_of_mem _ hx) c hc'
      · rw [List.mem_singleton] at hc'
        subst hc'
        exact hhead x hx

/-- Once some accumulator member collides with `y`, no later occurrence of
`y` can ever be appended. -/
theorem dedupLoop_drop_forever (thr : ℚ) :
    ∀ (l uniq : List NewsItem) (y : NewsItem),
      (∃ c ∈ uniq, thr ≤ calculate_title_similarity y.title c.title) →
      y ∈ dedupLoop thr uniq l → y ∈ uniq
  | [], uniq, y, _, hy => by simpa [dedupLoop] using hy
  | it :: rest, uniq, y, hex, hy => by
    simp only [dedupLoop] at hy
    by_cases hd : isDuplicateOf thr it uniq = true
    · rw [if_pos hd] at hy
      exact dedupLoop_drop_forever thr rest uniq y hex hy
    · rw [if_neg hd] at hy
      have hmem := dedupLoop_drop_forever thr rest (uniq ++ [it]) y
        (by
          obtain ⟨c, hc, hcs⟩ := hex
          exact ⟨c, List.mem_append_left _ hc, hcs⟩) hy
      rcases List.mem_append.mp hmem with h | h
      · exact h
      · rw [List.mem_singleton] at h
        subst h
        obtain ⟨c, hc, hcs⟩ := hex
        exact absurd hcs (isDuplicateOf_eq_false hd c hc)

/-- If `x` precedes `y` in the processed list, `x`'s title equals `y`'s and
the self-similarity reaches the threshold, then `y` cannot be freshly kept:
it already sat in the accumulator, or is `x` itself, or an occurrence from
the prefix before `x`. -/
theorem dedupLoop_later_twin (thr : ℚ) (x y : NewsItem) (m₂ m₃ : List NewsItem)
    (ht : x.title = y.title)
    (hsim : thr ≤ calculate_title_similarity y.title x.title) :
    ∀ (m₁ uniq : List NewsItem),
      y ∈ dedupLoop thr uniq (m₁ ++ x :: m₂ ++ y :: m₃) →
      y ∈ uniq ∨ y = x ∨ y ∈ m₁
  | [], uniq, hy => by
    simp only [List.nil_append, List.cons_append] at hy
    simp only [dedupLoop] at hy
    by_cases hd : isDuplicateOf thr x uniq = true
    · rw [if_pos hd] at hy
      obtain ⟨c, hc, hcs⟩ := isDuplicateOf_eq_true hd
      rw [ht] at hcs
      exact Or.inl (dedupLoop_drop_forever thr _ uniq y ⟨c, hc, hcs⟩ hy)
    · rw [if_neg hd] at hy
      have := dedupLoop_drop_forever thr _ (uniq ++ [x]) y
        ⟨x, List.mem_append_right _ (List.mem_singleton_self x), hsim⟩ hy
      rcases List.mem_append.mp this with h | h
      · exact Or.inl h
      · rw [List.mem_singleton] at h
        exact Or.inr (Or.inl h)
  | h₁ :: m₁, uniq, hy => by
    simp only [List.cons_append] at hy
    simp only [dedupLoop] at hy
    by_cases hd : isDuplicateOf thr h₁ uniq = true
    · rw [if_pos hd] at hy
      rcases dedupLoop_later_twin thr x y m₂ m₃ ht hsim m₁ uniq
        (by simpa using hy) with h | h | h
      · exact Or.inl h
      · exact Or.inr (Or.inl h)
      · exact Or.inr (Or.inr (List.mem_cons_of_mem _ h))
    · rw [if_neg hd] at hy
      rcases dedupLoop_later_twin thr x y m₂ m₃ ht hsim m₁ (uniq ++ [h₁])
        (by simpa using hy) with h | h | h
      · rcases List.mem_append.mp h with h' | h'
        · exact Or.inl h'
        · rw [List.mem_singleton] at h'
          subst h'
          exact Or.inr (Or.inr (List.mem_cons_self _ _))
      · exact Or.inr (Or.inl h)
      · exact Or.inr (Or.inr (List.mem_cons_of_mem _ h))

/-! ### Sorting facts for `sortByScore` -/

theorem sortByScore_sorted (items : List NewsItem) :
    List.Sorted scoreGE (sortByScore items) :=
  List.sorted_insertionSort scoreGE items

/-- The output of `remove_duplicate_news` is a sublist of the stable
score-descending order of the input. -/
theorem remove_duplicate_news_sublist_sorted (items : List NewsItem) (thr : ℚ) :
    (remove_duplicate_news items thr).Sublist (sortByScore items) := by
  rw [remove_duplicate_news]
  split
  · exact List.nil_sublist _
  · obtain ⟨s, hs, hsub⟩ := dedupLoop_decomp thr (sortByScore items) []
    rw [hs]
    simpa using hsub

theorem remove_duplicate_news_pairwise_dissim (items : List NewsItem) (thr : ℚ) :
    List.Pairwise (dissimAfter thr) (remove_duplicate_news items thr) := by
  rw [remove_duplicate_news]
  split
  · exact List.Pairwise.nil
  · exact dedupLoop_pairwise thr _ [] List.Pairwise.nil

theorem remove_duplicate_news_sorted (items : List NewsItem) (thr : ℚ) :
    List.Sorted scoreGE (remove_duplicate_news items thr) :=
  (sortByScore_sorted items).sublist (remove_duplicate_news_sublist_sorted items thr)

/-- Idempotence at any threshold. -/
theorem remove_duplicate_news_idem_general (items : List NewsItem) (thr : ℚ) :
    remove_duplicate_news (remove_duplicate_news items thr) thr =
      remove_duplicate_news items thr := by
  by_cases h : (remove_duplicate_news items thr).isEmpty
  · rw [List.isEmpty_iff] at h
    rw [h]
    rfl
  · rw [remove_duplicate_news, if_neg h]
    have hsorted := remove_duplicate_news_sorted items thr
    have hsort_eq : sortByScore (remove_duplicate_news items thr) =
        remove_duplicate_news items thr := by
      rw [sortByScore]
      exact hsorted.insertionSort_eq
    rw [hsort_eq]
    have hpw := remove_duplicate_news_pairwise_dissim items thr
    have := dedupLoop_keep_all thr (remove_duplicate_news items thr) []
      (fun x _ c hc => absurd hc (List.not_mem_nil c)) hpw
    simpa using this

/-! ## Claim C4 -/

/-- C4: with the fixed threshold 0.75, applying `remove_duplicate_news` to
its own output returns exactly that output — the same items in the same
order. -/
theorem remove_duplicate_news_idempotent (items : List NewsItem) :
    remove_duplicate_news (remove_duplicate_news items (3/4)) (3/4) =
      remove_duplicate_news items (3/4) :=
  remove_duplicate_news_idem_general items (3/4)

/-! ## Claim C3 -/

theorem pair_sublist_of_get {α : Type _} :
    ∀ (l : List α) (i j : Nat) (hij : i < j) (hj : j < l.length),
      List.Sublist [l.get ⟨i, Nat.lt_trans hij hj⟩, l.get ⟨j, hj⟩] l
  | [], _, _, _, hj => by simp at hj
  | _ :: _, _, 0, hij, _ => by omega
  | a :: l, 0, j + 1, hij, hj => by
    simp only [List.get_cons_zero, List.get_cons_succ]
    exact (List.singleton_sublist.mpr (List.get_mem l j _)).cons₂ a
  | a :: l, i + 1, j + 1, hij, hj => by
    simp only [List.get_cons_succ]
    exact (pair_sublist_of_get l i j (Nat.lt_of_succ_lt_succ hij)
      (Nat.lt_of_succ_lt_succ hj)).cons a

theorem pair_sublist_decomp {α : Type _} {x y : α} :
    ∀ {m : List α}, List.Sublist [x, y] m → ∃ m₁ m₂ m₃, m = m₁ ++ x :: m₂ ++ y :: m₃
  | _, List.Sublist.cons a h' => by
    obtain ⟨m₁, m₂, m₃, rfl⟩ := pair_sublist_decomp h'
    exact ⟨a :: m₁, m₂, m₃, rfl⟩
  | _, List.Sublist.cons₂ a h' => by
    obtain ⟨s, t, rfl⟩ := List.append_of_mem (List.singleton_sublist.mp h')
    exact ⟨[], s, t, rfl⟩

theorem mem_pair_decomp {α : Type _} {x y : α} {m : List α}
    (hx : x ∈ m) (hy : y ∈ m) (hne : x ≠ y) :
    (∃ m₁ m₂ m₃, m = m₁ ++ x :: m₂ ++ y :: m₃) ∨
    (∃ m₁ m₂ m₃, m = m₁ ++ y :: m₂ ++ x :: m₃) := by
  obtain ⟨s, t, rfl⟩ := List.append_of_mem hx
  rcases List.mem_append.mp hy with hys | hyt
  · obtain ⟨u, v, rfl⟩ := List.append_of_mem hys
    right
    exact ⟨u, v, t, by simp⟩
  · rcases List.mem_cons.mp hyt with he | hyt'
    · exact absurd he.symm hne
    · obtain ⟨u, v, rfl⟩ := List.append_of_mem hyt'
      left
      exact ⟨s, u, v, by simp⟩

theorem pairwise_middle_rel {α : Type _} {R : α → α → Prop} {x y : α}
    {m₁ m₂ m₃ : List α} (hp : List.Pairwise R (m₁ ++ x :: m₂ ++ y :: m₃)) :
    R x y := by
  rw [List.pairwise_append] at hp
  exact hp.2.2 x (List.mem_append_right _ (List.mem_cons_self _ _)) y
    (List.mem_cons_self _ _)

/-- C3 amended: with the fixed threshold 0.75, (i) at most one item with any
given exact title survives; (ii) in a duplicate-free batch, when two items
have identical titles, a later-positioned one survives only if its
`relevance_score` strictly exceeds the earlier one's, and an earlier one
survives only if its score is at least the later one's — so the survivor,
if any, is the higher-scored twin, or on a score tie the input-earlier one;
(iii) the head of the stable score-descending order — a maximum-scoring
item of the batch and of any cluster containing it — is never removed.
(The original claim's stronger clause, that the highest-scoring member of
every pairwise-similar cluster is never removed, is refuted by
`similarity_cluster_counterexample`.) -/
theorem remove_duplicate_news_twins :
    (∀ (items : List NewsItem) (t : String),
      ((remove_duplicate_news items (3/4)).filter (fun z => z.title == t)).length ≤ 1) ∧
    (∀ (items : List NewsItem), items.Nodup →
      ∀ (i j : Nat) (hij : i < j) (hj : j < items.length),
        (items.get ⟨i, Nat.lt_trans hij hj⟩).title = (items.get ⟨j, hj⟩).title →
        (items.get ⟨j, hj⟩ ∈ remove_duplicate_news items (3/4) →
          (items.get ⟨i, Nat.lt_trans hij hj⟩).relevance_score <
            (items.get ⟨j, hj⟩).relevance_score) ∧
        (items.get ⟨i, Nat.lt_trans hij hj⟩ ∈ remove_duplicate_news items (3/4) →
          (items.get ⟨j, hj⟩).relevance_score ≤
            (items.get ⟨i, Nat.lt_trans hij hj⟩).relevance_score)) ∧
    (∀ (items : List NewsItem) (x : NewsItem),
      (sortByScore items).head? = some x →
      x ∈ remove_duplicate_news items (3/4)) := by
  refine ⟨?_, ?_, ?_⟩
  · intro items t
    have hpw := (remove_duplicate_news_pairwise_dissim items (3/4)).filter
      (fun z => z.title == t)
    rcases hf : (remove_duplicate_news items (3/4)).filter (fun z => z.title == t)
      with _ | ⟨a, _ | ⟨b, rest⟩⟩
    · rw [hf]
      simp
    · rw [hf]
      simp
    · exfalso
      rw [hf] at hpw
      have hab : dissimAfter (3/4) a b :=
        (List.pairwise_cons.mp hpw).1 b (List.mem_cons_self _ _)
      have ha : a ∈ (remove_duplicate_news items (3/4)).filter (fun z => z.title == t) := by
        rw [hf]; exact List.mem_cons_self _ _
      have hb : b ∈ (remove_duplicate_news items (3/4)).filter (fun z => z.title == t) := by
        rw [hf]; exact List.mem_cons_of_mem _ (List.mem_cons_self _ _)
      have hat : a.title = t := by simpa using (List.mem_filter.mp ha).2
      have hbt : b.title = t := by simpa using (List.mem_filter.mp hb).2
      apply hab
      rw [hbt, hat, calculate_title_similarity_self]
      norm_num
  · intro items hnd i j hij hj ht
    have hxy : items.get ⟨i, Nat.lt_trans hij hj⟩ ≠ items.get ⟨j, hj⟩ := by
      intro he
      have := hnd.get_inj_iff.mp he
      simp only [Fin.mk.injEq] at this
      omega
    have hne : ¬ items.isEmpty = true := by
      intro he
      rw [List.isEmpty_iff] at he
      subst he
      simp only [List.length_nil] at hj
      omega
    have hnds : (sortByScore items).Nodup :=
      (List.perm_insertionSort scoreGE items).nodup_iff.mpr hnd
    constructor
    · intro hmem
      by_contra hcon
      push_neg at hcon
      have hsub : List.Sublist [items.get ⟨i, Nat.lt_trans hij hj⟩, items.get ⟨j, hj⟩]
          items :=
        pair_sublist_of_get items i j hij hj
      have hsubs : List.Sublist [items.get ⟨i, Nat.lt_trans hij hj⟩, items.get ⟨j, hj⟩]
          (sortByScore items) :=
        List.pair_sublist_insertionSort hcon hsub
      obtain ⟨m₁, m₂, m₃, hm⟩ := pair_sublist_decomp hsubs
      have hmem' : items.get ⟨j, hj⟩ ∈ dedupLoop (3/4) [] (sortByScore items) := by
        rw [remove_duplicate_news, if_neg hne] at hmem
        exact hmem
      rw [hm] at hmem'
      have hsim : (3/4 : ℚ) ≤ calculate_title_similarity (items.get ⟨j, hj⟩).title
          (items.get ⟨i, Nat.lt_trans hij hj⟩).title := by
        rw [ht, calculate_title_similarity_self]
        norm_num
      rcases dedupLoop_later_twin (3/4) _ _ m₂ m₃ ht hsim m₁ [] hmem' with h | h | h
      · simp at h
      · exact hxy h.symm
      · rw [hm, List.nodup_append] at hnds
        exact hnds.2.2 (List.mem_append_left _ h) (List.mem_cons_self _ _)
    · intro hmem
      by_contra hcon
      push_neg at hcon
      have hxs : items.get ⟨i, Nat.lt_trans hij hj⟩ ∈ sortByScore items := by
        rw [sortByScore]
        exact (List.mem_insertionSort scoreGE).mpr (List.get_mem items i (Nat.lt_trans hij hj))
      have hys : items.get ⟨j, hj⟩ ∈ sortByScore items := by
        rw [sortByScore]
        exact (List.mem_insertionSort scoreGE).mpr (List.get_mem items j hj)
      rcases mem_pair_decomp hxs hys hxy with ⟨m₁, m₂, m₃, hm⟩ | ⟨m₁, m₂, m₃, hm⟩
      · have hp : List.Pairwise scoreGE (sortByScore items) := sortByScore_sorted items
        rw [hm] at hp
        have hge : (items.get ⟨j, hj⟩).relevance_score ≤
            (items.get ⟨i, Nat.lt_trans hij hj⟩).relevance_score :=
          pairwise_middle_rel (R := scoreGE) hp
        omega
      · have hmem' : items.get ⟨i, Nat.lt_trans hij hj⟩ ∈
            dedupLoop (3/4) [] (sortByScore items) := by
          rw [remove_duplicate_news, if_neg hne] at hmem
          exact hmem
        rw [hm] at hmem'
        have hsim : (3/4 : ℚ) ≤ calculate_title_similarity
            (items.get ⟨i, Nat.lt_trans hij hj⟩).title (items.get ⟨j, hj⟩).title := by
          rw [ht, calculate_title_similarity_self]
          norm_num
        rcases dedupLoop_later_twin (3/4) _ _ m₂ m₃ ht.symm hsim m₁ [] hmem'
          with h | h | h
        · simp at h
        · exact hxy h
        · rw [hm, List.nodup_append] at hnds
          exact hnds.2.2 (List.mem_append_left _ h) (List.mem_cons_self _ _)
  · intro items x hhead
    rcases hs : sortByScore items with _ | ⟨z, rest⟩
    · rw [hs] at hhead
      simp at hhead
    · rw [hs] at hhead
      simp only [List.head?_cons, Option.some.injEq] at hhead
      subst hhead
      have hne : ¬ items.isEmpty = true := by
        intro he
        rw [List.isEmpty_iff] at he
        subst he
        rw [sortByScore] at hs
        simp at hs
      rw [remove_duplicate_news, if_neg hne, hs]
      simp only [dedupLoop]
      rw [if_neg (by simp [isDuplicateOf])]
      obtain ⟨s, hdec, -⟩ := dedupLoop_decomp (3/4) rest ([] ++ [z])
      rw [hdec]
      exact List.mem_append_left _ (by simp)

/-! The counterexample items: titles `abcdefgh` / `cdefghij` / `efghijkl`
with `ratio = 0.75` between neighbours and `0.5` across, scores
100 / 90 / 80. -/

def simItemA : NewsItem := ⟨"abcdefgh", "", "", "", "", 100, true, [], none, false, false, ""⟩

def simItemB : NewsItem := ⟨"cdefghij", "", "", "", "", 90, true, [], none, false, false, ""⟩

def simItemC : NewsItem := ⟨"efghijkl", "", "", "", "", 80, true, [], none, false, false, ""⟩

theorem simBA : calculate_title_similarity simItemB.title simItemA.title = 3/4 := by
  have hM : matchTotal (pyStrip (pyLower simItemB.title)).data
      (pyStrip (pyLower simItemA.title)).data
      (isPopular (pyStrip (pyLower simItemA.title)).data)
      ((pyStrip (pyLower simItemB.title)).data.length +
       (pyStrip (pyLower simItemA.title)).data.length) 0
      (pyStrip (pyLower simItemB.title)).data.length 0
      (pyStrip (pyLower simItemA.title)).data.length = 6 := by decide
  have hT : (pyStrip (pyLower simItemB.title)).data.length +
      (pyStrip (pyLower simItemA.title)).data.length = 16 := by decide
  rw [calculate_title_similarity]
  simp only [sequenceRatio]
  rw [hM, hT]
  norm_num

theorem simCA : calculate_title_similarity simItemC.title simItemA.title = 1/2 := by
  have hM : matchTotal (pyStrip (pyLower simItemC.title)).data
      (pyStrip (pyLower simItemA.title)).data
      (isPopular (pyStrip (pyLower simItemA.title)).data)
      ((pyStrip (pyLower simItemC.title)).data.length +
       (pyStrip (pyLower simItemA.title)).data.length) 0
      (pyStrip (pyLower simItemC.title)).data.length 0
      (pyStrip (pyLower simItemA.title)).data.length = 4 := by decide
  have hT : (pyStrip (pyLower simItemC.title)).data.length +
      (pyStrip (pyLower simItemA.title)).data.length = 16 := by decide
  rw [calculate_title_similarity]
  simp only [sequenceRatio]
  rw [hM, hT]
  norm_num

theorem simBC : calculate_title_similarity simItemB.title simItemC.title = 3/4 := by
  have hM : matchTotal (pyStrip (pyLower simItemB.title)).data
      (pyStrip (pyLower simItemC.title)).data
      (isPopular (pyStrip (pyLower simItemC.title)).data)
      ((pyStrip (pyLower simItemB.title)).data.length +
       (pyStrip (pyLower simItemC.title)).data.length) 0
      (pyStrip (pyLower simItemB.title)).data.length 0
      (pyStrip (pyLower simItemC.title)).data.length = 6 := by decide
  have hT : (pyStrip (pyLower simItemB.title)).data.length +
      (pyStrip (pyLower simItemC.title)).data.length = 16 := by decide
  rw [calculate_title_similarity]
  simp only [sequenceRatio]
  rw [hM, hT]
  norm_num

theorem simCB : calculate_title_similarity simItemC.title simItemB.title = 3/4 := by
  have hM : matchTotal (pyStrip (pyLower simItemC.title)).data
      (pyStrip (pyLower simItemB.title)).data
      (isPopular (pyStrip (pyLower simItemB.title)).data)
      ((pyStrip (pyLower simItemC.title)).data.length +
       (pyStrip (pyLower simItemB.title)).data.length) 0
      (pyStrip (pyLower simItemC.title)).data.length 0
      (pyStrip (pyLower simItemB.title)).data.length = 6 := by decide
  have hT : (pyStrip (pyLower simItemC.title)).data.length +
      (pyStrip (pyLower simItemB.title)).data.length = 16 := by decide
  rw [calculate_title_similarity]
  simp only [sequenceRatio]
  rw [hM, hT]
  norm_num

theorem dedup_eval_ABC :
    remove_duplicate_news [simItemA, simItemB, simItemC] (3/4) =
      [simItemA, simItemC] := by
  have hB : isDuplicateOf (3/4) simItemB [simItemA] = true := by
    simp only [isDuplicateOf, List.any_cons, List.any_nil, simBA, Bool.or_false]
    norm_num
  have hC : isDuplicateOf (3/4) simItemC [simItemA] = false := by
    simp only [isDuplicateOf, List.any_cons, List.any_nil, simCA, Bool.or_false]
    norm_num
  rw [remove_duplicate_news, if_neg (by decide),
    show sortByScore [simItemA, simItemB, simItemC] = [simItemA, simItemB, simItemC]
      from by decide]
  rw [dedupLoop, if_neg (by simp [isDuplicateOf])]
  simp only [List.nil_append]
  rw [dedupLoop, if_pos hB]
  rw [dedupLoop, if_neg (by simp [hC])]
  rw [dedupLoop]
  simp

/-- C3 counterexample: items B (score 90) and C (score 80) form a similarity
cluster — their titles are pairwise ≥ 0.75 similar in both computed
directions — yet the cluster's highest-scoring member B is removed (it is
0.75-similar to the higher-scored A outside the cluster) while C survives:
the output is `[A, C]`.  So "the highest-scoring member of any similarity
cluster is never removed" fails as stated. -/
theorem similarity_cluster_counterexample :
    (3/4 : ℚ) ≤ calculate_title_similarity simItemB.title simItemC.title ∧
    (3/4 : ℚ) ≤ calculate_title_similarity simItemC.title simItemB.title ∧
    simItemC.relevance_score < simItemB.relevance_score ∧
    remove_duplicate_news [simItemA, simItemB, simItemC] (3/4) =
      [simItemA, simItemC] ∧
    simItemB ∉ remove_duplicate_news [simItemA, simItemB, simItemC] (3/4) := by
  refine ⟨by rw [simBC], by rw [simCB], by decide, dedup_eval_ABC, ?_⟩
  rw [dedup_eval_ABC]
  decide

def twinLow : NewsItem := ⟨"seoul apts", "", "", "", "", 50, true, [], none, false, false, ""⟩

def twinHigh : NewsItem := ⟨"seoul apts", "", "", "", "", 90, true, [], none, false, false, ""⟩

def eqTwinA : NewsItem := ⟨"jeju villa", "", "a", "", "", 90, true, [], none, false, false, ""⟩

def eqTwinB : NewsItem := ⟨"jeju villa", "", "b", "", "", 90, true, [], none, false, false, ""⟩

/-- C3 witness: on the batch `[twinLow, twinHigh]` with identical titles and
scores 50 < 90, at most one item with that title survives and the surviving
later twin has the strictly higher score; on the equal-score identical-title
batch `[eqTwinA, eqTwinB]` the surviving input-earlier twin's score is at
least the later twin's. -/
theorem remove_duplicate_news_twins_witness :
    ((remove_duplicate_news [twinLow, twinHigh] (3/4)).filter
      (fun z => z.title == "seoul apts")).length ≤ 1 ∧
    (([twinLow, twinHigh] : List NewsItem).get ⟨0, by decide⟩).relevance_score <
      (([twinLow, twinHigh] : List NewsItem).get ⟨1, by decide⟩).relevance_score ∧
    twinHigh ∈ remove_duplicate_news [twinLow, twinHigh] (3/4) ∧
    (([eqTwinA, eqTwinB] : List NewsItem).get ⟨1, by decide⟩).relevance_score ≤
      (([eqTwinA, eqTwinB] : List NewsItem).get ⟨0, by decide⟩).relevance_score := by
  have hmem : twinHigh ∈ remove_duplicate_news [twinLow, twinHigh] (3/4) := by
    rw [remove_duplicate_news, if_neg (by decide),
      show sortByScore [twinLow, twinHigh] = [twinHigh, twinLow] from by decide]
    rw [dedupLoop, if_neg (by simp [isDuplicateOf])]
    obtain ⟨s, hdec, -⟩ := dedupLoop_decomp (3/4) [twinLow] ([] ++ [twinHigh])
    rw [hdec]
    exact List.mem_append_left _ (by simp)
  have hmemEq : eqTwinA ∈ remove_duplicate_news [eqTwinA, eqTwinB] (3/4) := by
    rw [remove_duplicate_news, if_neg (by decide),
      show sortByScore [eqTwinA, eqTwinB] = [eqTwinA, eqTwinB] from by decide]
    rw [dedupLoop, if_neg (by simp [isDuplicateOf])]
    obtain ⟨s, hdec, -⟩ := dedupLoop_decomp (3/4) [eqTwinB] ([] ++ [eqTwinA])
    rw [hdec]
    exact List.mem_append_left _ (by simp)
  refine ⟨remove_duplicate_news_twins.1 [twinLow, twinHigh] "seoul apts",
    (remove_duplicate_news_twins.2.1 [twinLow, twinHigh] (by decide) 0 1
      (by omega) (by decide) rfl).1 hmem, hmem,
    (remove_duplicate_news_twins.2.1 [eqTwinA, eqTwinB] (by decide) 0 1
      (by omega) (by decide) rfl).2 hmemEq⟩

end NewsCrawler
